import Mathlib

/-!
Verification of the Schema Extraction & Relationship Inference Engine of
`db_mapper.py` (class `DatabaseMapper`).

The Python code is shallowly embedded: strings are Lean `String`s manipulated
through their character lists, Python dicts (which preserve insertion order
and have unique keys) are association lists `List (String × _)` updated with
`dictInsert`, and the mutating methods become functions from input data to a
`Model` value.  The two front-ends take their external inputs (the list of
regex matches for `CREATE TABLE`, resp. the rows returned by the catalog
PRAGMA queries) as arguments; everything from there on is translated
statement by statement from the source.  Regular expressions that the source
applies to arbitrary text (the `FOREIGN KEY` clause scanner, the column-name
patterns) are implemented as explicit character-list scanners with the same
matching semantics, with `\w` read as ASCII `[A-Za-z0-9_]`.
-/

/-- Python `str.isspace` characters relevant to `\s` and `str.strip()`. -/
def isPyWs (c : Char) : Bool :=
  c == ' ' || c == '\t' || c == '\n' || c == '\r' || c == '\x0b' || c == '\x0c'

/-- ASCII reading of the regex class `\w`. -/
def isWordChar (c : Char) : Bool :=
  c.isAlpha || c.isDigit || c == '_'

/-- The identifier-quoting characters stripped by the parser: `"`, `[`, `]` and backquote. -/
def quoteChars : List Char := ['\"', '[', ']', Char.ofNat 96]

/-- Drop characters satisfying `p` from both ends of a list (Python `str.strip(chars)`). -/
def stripEnds (p : Char → Bool) (l : List Char) : List Char :=
  ((l.dropWhile p).reverse.dropWhile p).reverse

/-- Python `s.strip('"[]` + backquote + `')`-style stripping of a fixed character set. -/
def stripChars (s : String) (cs : List Char) : String :=
  ⟨stripEnds (fun c => cs.contains c) s.data⟩

/-- Python `s.strip()` (whitespace at both ends). -/
def pyStrip (s : String) : String :=
  ⟨stripEnds isPyWs s.data⟩

/-- Python `s.rstrip(chars)`. -/
def pyRstrip (s : String) (cs : List Char) : String :=
  ⟨(s.data.reverse.dropWhile (fun c => cs.contains c)).reverse⟩

/-- Python `s.lower()` (per-character, ASCII). -/
def pyLower (s : String) : String := ⟨s.data.map Char.toLower⟩

/-- Python `s.upper()` (per-character, ASCII). -/
def pyUpper (s : String) : String := ⟨s.data.map Char.toUpper⟩

/-- Substring test on character lists (Python `needle in hay`). -/
def listHasInfix (needle : List Char) : List Char → Bool
  | [] => needle.isEmpty
  | a :: t => needle.isPrefixOf (a :: t) || listHasInfix needle t

/-- Python `needle in hay` for strings. -/
def strContains (hay needle : String) : Bool := listHasInfix needle.data hay.data

/-- Python `s.startswith(p)`. -/
def strStartsWith (s p : String) : Bool := p.data.isPrefixOf s.data

/-- Python `s.endswith(p)` / an anchored `p$` regex search. -/
def strEndsWith (s p : String) : Bool := p.data.reverse.isPrefixOf s.data.reverse

/-- Drop the last `n` characters of a string. -/
def strDropRight (s : String) (n : Nat) : String := ⟨s.data.take (s.data.length - n)⟩

/-- Python `s.split(c)` on a single separator character. -/
def splitOnChar (c : Char) : List Char → List (List Char)
  | [] => [[]]
  | a :: t =>
    match splitOnChar c t with
    | h :: r => if a == c then [] :: h :: r else (a :: h) :: r
    | [] => [[a]]

/-- Python `s.split('→')[0]`: the prefix of `s` before the first arrow. -/
def arrowHead (s : String) : String := ⟨s.data.takeWhile (fun c => c != '→')⟩

/-- First maximal run of `\w` characters, as found by `re.search(r'(\w+)', s)`. -/
def firstWordRun : List Char → Option (List Char)
  | [] => none
  | c :: t => if isWordChar c then some (c :: t.takeWhile isWordChar) else firstWordRun t

/-- Python `s.split(None, 1)` restricted to the case used by the code:
`some (first token, remainder)` when the split yields at least two parts. -/
def splitNone1 (s : String) : Option (String × String) :=
  let l := s.data.dropWhile isPyWs
  let tok := l.takeWhile (fun c => !(isPyWs c))
  let rest := (l.dropWhile (fun c => !(isPyWs c))).dropWhile isPyWs
  if tok.isEmpty || rest.isEmpty then none else some (⟨tok⟩, ⟨rest⟩)

/-- `re.sub(r'--.*$', '', s)` on newline-free text: cut at the first `--`. -/
def cutAtSub (needle : List Char) : List Char → List Char
  | [] => []
  | a :: t => if needle.isPrefixOf (a :: t) then [] else a :: cutAtSub needle t

/-- A relationship tuple `(fromTable, toTable, label)`. -/
abbrev RelTuple := String × String × String

/-- A parsed column: `{'name': .., 'type': .., 'nullable': .., 'pk': ..}`. -/
structure Column where
  name : String
  type : String
  nullable : Bool
  pk : Bool
deriving DecidableEq

/-- The mapper state relevant to the core: `self.tables`,
`self.relationships` and `self.explicit_relationships`. -/
structure Model where
  tables : List (String × List Column)
  relationships : List RelTuple
  explicit_relationships : List RelTuple
deriving DecidableEq

/-- Python dict assignment `d[k] = v`: overwrite in place if the key exists
(keeping its position), otherwise append. -/
def dictInsert {α : Type} (d : List (String × α)) (k : String) (v : α) : List (String × α) :=
  if d.any (fun e => e.1 == k) then d.map (fun e => if e.1 == k then (k, v) else e)
  else d ++ [(k, v)]

/-- Python dict lookup `d.get(k)` on an association list with unique keys. -/
def lookupTable {α : Type} (d : List (String × α)) (k : String) : Option α :=
  (d.find? (fun e => e.1 == k)).map (fun e => e.2)

/-- `DatabaseMapper._extract_column_info` (db_mapper.py lines 232-258). -/
def extract_column_info (column_def : String) : Option Column :=
  let cd := pyStrip ⟨cutAtSub ['-', '-'] column_def.data⟩
  match splitNone1 cd with
  | none => none
  | some (name0, def0) =>
    let name := stripChars name0 quoteChars
    let definition := pyUpper def0
    let col_type : String :=
      match firstWordRun definition.data with
      | some w => ⟨w⟩
      | none => "TEXT"
    some ⟨name, col_type, !(strContains definition "NOT NULL"),
          strContains definition "PRIMARY KEY"⟩

/-- Drop leading whitespace (regex `\s*`). -/
def dropWs (l : List Char) : List Char := l.dropWhile isPyWs

/-- Case-insensitive literal matching (the `re.IGNORECASE` flag): consume
`lit` from the front of the input, returning the rest. -/
def matchCI : List Char → List Char → Option (List Char)
  | [], l => some l
  | _ :: _, [] => none
  | c :: cs, a :: t => if a.toLower == c.toLower then matchCI cs t else none

/-- Regex `\s+`: at least one whitespace character, consumed greedily. -/
def matchWs1 : List Char → Option (List Char)
  | a :: t => if isPyWs a then some (dropWs t) else none
  | [] => none

/-- Try to match the foreign-key clause pattern
`FOREIGN\s+KEY\s*\(([^)]+)\)\s*REFERENCES\s+([^\s(]+)(?:\s*\(([^)]+)\))?`
(case-insensitively) at the start of the input.  Returns the three captured
groups (the third optional) and the remainder of the input after the match. -/
def tryFKAt (l : List Char) : Option ((List Char × List Char × Option (List Char)) × List Char) :=
  match matchCI "FOREIGN".data l with
  | none => none
  | some l1 =>
    match matchWs1 l1 with
    | none => none
    | some l2 =>
      match matchCI "KEY".data l2 with
      | none => none
      | some l3 =>
        match dropWs l3 with
        | '(' :: l5 =>
          let g1 := l5.takeWhile (fun c => c != ')')
          if g1.isEmpty then none else
          match l5.drop g1.length with
          | ')' :: l7 =>
            match matchCI "REFERENCES".data (dropWs l7) with
            | none => none
            | some l9 =>
              match matchWs1 l9 with
              | none => none
              | some l10 =>
                let g2 := l10.takeWhile (fun c => !(isPyWs c) && c != '(')
                if g2.isEmpty then none else
                let l11 := l10.drop g2.length
                match dropWs l11 with
                | '(' :: t =>
                  let g3 := t.takeWhile (fun c => c != ')')
                  if g3.isEmpty then some ((g1, g2, none), l11) else
                  match t.drop g3.length with
                  | ')' :: t2 => some ((g1, g2, some g3), t2)
                  | _ => some ((g1, g2, none), l11)
                | _ => some ((g1, g2, none), l11)
          | _ => none
        | _ => none

/-- `re.finditer` for the foreign-key pattern: scan left to right, resuming
after the end of each match.  Fuel-based recursion; every successful match
consumes at least one character, so `l.length` fuel is always enough. -/
def scanFKsAux : Nat → List Char → List (List Char × List Char × Option (List Char))
  | 0, _ => []
  | _ + 1, [] => []
  | fuel + 1, a :: t =>
    match tryFKAt (a :: t) with
    | some (g, rest) => g :: scanFKsAux fuel rest
    | none => scanFKsAux fuel t

/-- All foreign-key clause matches in a statement body. -/
def scanFKs (l : List Char) : List (List Char × List Char × Option (List Char)) :=
  scanFKsAux l.length l

/-- `DatabaseMapper._extract_foreign_keys` (db_mapper.py lines 260-271).
Appends `(table_name, referenced_table, referenced_column)` per match, with
the referenced column defaulting to the local column when absent. -/
def extract_foreign_keys (table_name : String) (create_stmt : String) : List RelTuple :=
  (scanFKs create_stmt.data).map (fun g =>
    let local_col := stripChars ⟨g.1⟩ quoteChars
    let ref_table := stripChars ⟨g.2.1⟩ quoteChars
    let ref_col :=
      match g.2.2 with
      | some rc => stripChars ⟨rc⟩ quoteChars
      | none => local_col
    (table_name, ref_table, ref_col))

/-- Net parenthesis count of a fragment: `part.count('(') - part.count(')')`. -/
def parenDelta (part : List Char) : Int :=
  (part.countP (fun c => c == '(') : Int) - (part.countP (fun c => c == ')') : Int)

/-- The comma-splitting loop of `parse_sql_file` (db_mapper.py lines 295-305):
fragments are flushed whenever the running parenthesis count returns to zero;
an unflushed tail is dropped. -/
def groupFragments : List (List Char) → Int → List (List Char) → List String
  | [], _, _ => []
  | p :: rest, cnt, cur =>
    let cnt' := cnt + parenDelta p
    let cur' := cur ++ [p]
    if cnt' == 0 then (⟨List.intercalate [','] cur'⟩ : String) :: groupFragments rest 0 []
    else groupFragments rest cnt' cur'

/-- Per-fragment column processing (db_mapper.py lines 309-318): strip, drop
trailing `); \n\t`, skip table-level constraints, then extract column info. -/
def fragToColumn (frag : String) : Option Column :=
  let f1 := pyStrip frag
  let f2 := pyRstrip f1 [')', ';', ' ', '\n', '\t']
  let up := pyUpper f2
  if strStartsWith up "FOREIGN KEY" || strStartsWith up "PRIMARY KEY" ||
     strStartsWith up "UNIQUE" || strStartsWith up "CHECK"
  then none
  else extract_column_info f2

/-- The usable columns of one `CREATE TABLE` body. -/
def columnsOfBody (table_def : String) : List Column :=
  (groupFragments (splitOnChar ',' table_def.data) 0 []).filterMap fragToColumn

/-- One iteration of the `CREATE TABLE` match loop of `parse_sql_file`
(db_mapper.py lines 289-324): register the table only when it has at least
one usable column, but always run foreign-key extraction. -/
def processCreate (m : Model) (stmt : String × String) : Model :=
  let table_name := stripChars stmt.1 quoteChars
  let table_def := stmt.2
  let columns := columnsOfBody table_def
  { m with
    tables := if columns ≠ [] then dictInsert m.tables table_name columns else m.tables,
    explicit_relationships :=
      m.explicit_relationships ++ extract_foreign_keys table_name table_def }

/-- The six column-naming patterns of `_find_potential_relationships`
(db_mapper.py lines 99-106), as the literal suffix after the `(\w+)` group. -/
def fk_name_patterns : List String := ["_id", "ID", "Id", "_ID", "Key", "_key"]

/-- `re.match(r'^(\w+)<suffix>$', name)`: the pattern matches exactly when
`name` ends with the literal suffix and the non-empty remainder consists of
word characters; the captured group is that remainder. -/
def regex_base (sfx name : String) : Option String :=
  let base := strDropRight name sfx.data.length
  if strEndsWith name sfx && !base.data.isEmpty && base.data.all isWordChar
  then some base else none

/-- `plural_candidates` (db_mapper.py lines 116-130); the Python set is kept
as a list, used only through membership. -/
def plural_candidates (base : String) : List String :=
  [base, base ++ "s"]
  ++ (if strEndsWith base "s" then [strDropRight base 1] else [])
  ++ (if strEndsWith base "y" then [strDropRight base 1 ++ "ies"] else [])
  ++ (if strEndsWith base "ies" then [strDropRight base 3 ++ "y"] else [])
  ++ (if strEndsWith base "ss" then [base ++ "es"] else [])
  ++ (if strEndsWith base "es" then [strDropRight base 2] else [])

/-- The `pk_columns` mapping of `_find_potential_relationships` (db_mapper.py
lines 108-113): a table is present exactly when it has a column flagged as
primary key, and the recorded name is the last such column's (the Python loop
overwrites).  Table keys are unique, so `find?` agrees with the dict. -/
def pkGet (tables : List (String × List Column)) (name : String) : Option String :=
  (tables.find? (fun e => e.1 == name)).bind
    (fun e => ((e.2.filter (fun c => c.pk)).getLast?).map (fun c => c.name))

/-- The inner target-table scan of `_find_potential_relationships`
(db_mapper.py lines 147-157): the `break` sits under the candidate test, so
the scan stops at the first table whose lower-cased name is a pluralization
candidate, and a relationship is produced only when that same table has a
registered primary key. -/
def resolve_reference (tables : List (String × List Column)) (tn colRaw base : String) :
    List RelTuple :=
  match tables.find? (fun pt => (plural_candidates base).contains (pyLower pt.1)) with
  | some pt =>
    match pkGet tables pt.1 with
    | some pkc => [(tn, pt.1, colRaw ++ " → " ++ pkc)]
    | none => []
  | none => []

/-- The per-column body of `_find_potential_relationships` (db_mapper.py
lines 134-157): skip the table's own primary-key column, then try each naming
pattern in order against the lower-cased column name. -/
def emitForColumn (tables : List (String × List Column)) (tn : String) (col : Column) :
    List RelTuple :=
  let col_name := pyLower col.name
  if col_name == pyLower ((pkGet tables tn).getD "") then []
  else
    fk_name_patterns.foldl (fun acc sfx =>
      match regex_base sfx col_name with
      | some base0 => acc ++ resolve_reference tables tn col.name (pyLower base0)
      | none => acc) []

/-- `DatabaseMapper._find_potential_relationships` (db_mapper.py lines
95-159), as a function of `self.tables` — the only state the method reads. -/
def find_potential_relationships (tables : List (String × List Column)) : List RelTuple :=
  tables.flatMap (fun t => t.2.flatMap (fun col => emitForColumn tables t.1 col))

/-- The method call `self._find_potential_relationships()` as a state
transformer: the body assigns no attribute of `self`, so the state is
returned unchanged next to the computed list. -/
def find_potential_relationships_step (m : Model) : Model × List RelTuple :=
  (m, find_potential_relationships m.tables)

/-- The `already_explicit` test of the merge loops (db_mapper.py lines
225-228 and 335-338): same from-table, same to-table, and the pre-arrow token
of the inferred label equals the pre-arrow token of the explicit tuple's
third component. -/
def already_explicit (explicit : List RelTuple) (rel : RelTuple) : Bool :=
  explicit.any (fun ex =>
    rel.1 == ex.1 && rel.2.1 == ex.2.1 &&
    pyStrip (arrowHead rel.2.2) == pyStrip (arrowHead ex.2.2))

/-- One iteration of the merge loop: append the inferred relationship unless
it is redundant with an explicit one or already present by full tuple. -/
def finStep (explicit : List RelTuple) (rs : List RelTuple) (rel : RelTuple) : List RelTuple :=
  if !(already_explicit explicit rel) && !(rs.contains rel) then rs ++ [rel] else rs

/-- The relationship finalization shared verbatim by both front-ends
(db_mapper.py lines 216-230 and 326-340): `relationships` starts as a copy of
`explicit_relationships`; with inference enabled, inferred relationships are
merged through `finStep`. -/
def finalize (m : Model) (assume_flag : Bool) : Model :=
  if assume_flag then
    let assumed := find_potential_relationships m.tables
    let rels := assumed.foldl (finStep m.explicit_relationships) m.explicit_relationships
    { m with relationships := rels }
  else
    { m with relationships := m.explicit_relationships }

/-- `DatabaseMapper.parse_sql_file` (db_mapper.py lines 273-340) on a fresh
mapper, taking the list of `(group(1), group(2))` pairs produced by the
`CREATE TABLE` statement regex as input. -/
def parse_sql_file (stmts : List (String × String)) (assume_flag : Bool) : Model :=
  finalize (stmts.foldl processCreate ⟨[], [], []⟩) assume_flag

/-- One table's worth of catalog rows, as returned by the PRAGMA queries of
`parse_sqlite_db`: the table name, its translated column rows, and the
`(fk[2], fk[3])` pairs of `PRAGMA foreign_key_list`. -/
structure CatTable where
  name : String
  columns : List Column
  fks : List (String × String)
deriving DecidableEq

/-- `DatabaseMapper.parse_sqlite_db` (db_mapper.py lines 161-230) on a fresh
mapper, with the catalog query results as input. -/
def parse_sqlite_db (catalog : List CatTable) (assume_flag : Bool) : Model :=
  finalize
    (catalog.foldl (fun m t =>
      { m with
        tables := dictInsert m.tables t.name t.columns,
        explicit_relationships :=
          m.explicit_relationships ++ t.fks.map (fun fk => (t.name, fk.1, fk.2)) })
      ⟨[], [], []⟩) assume_flag

/-- The index-statement template of `_suggest_indexes`. -/
def idxStmt (table_name col : String) : String :=
  "CREATE INDEX IF NOT EXISTS idx_" ++ table_name ++ "_" ++ col ++ " ON " ++
    table_name ++ "(" ++ col ++ ");"

/-- Python `s == pk_col` where `pk_col` may be `None` (comparison with `None`
is `False` for a string). -/
def eqPk (s : String) (pk : Option String) : Bool :=
  match pk with
  | some q => s == q
  | none => false

/-- The `where_patterns` disjunction of `_suggest_indexes` (db_mapper.py
lines 559-565): `$`-anchored patterns are suffix tests; `is_` and `has_` are
unanchored substring tests. -/
def where_pattern_hit (cn : String) : Bool :=
  strEndsWith cn "status" || strEndsWith cn "type" || strEndsWith cn "category" ||
  strContains cn "is_" || strContains cn "has_" || strEndsWith cn "active" ||
  strEndsWith cn "date" || strEndsWith cn "created" || strEndsWith cn "updated" ||
  strEndsWith cn "deleted" || strEndsWith cn "name"

/-- Declared types treated as filter candidates in `_suggest_indexes`. -/
def possible_type_1 : List String := ["INTEGER", "BOOLEAN", "DATE", "DATETIME", "TIMESTAMP"]

/-- Declared types treated as sort candidates in `_suggest_indexes`. -/
def possible_type_2 : List String :=
  ["TEXT", "VARCHAR", "CHAR", "INTEGER", "DATE", "DATETIME", "TIMESTAMP"]

/-- `DatabaseMapper._suggest_indexes` (db_mapper.py lines 524-593), returning
the pair of table-keyed association lists of statement strings. -/
def suggest_indexes (m : Model) :
    List (String × List String) × List (String × List String) :=
  m.tables.foldl (fun (acc : List (String × List String) × List (String × List String)) t =>
    if t.1 == "sqlite_sequence" then acc
    else
      let pk_col : Option String := (t.2.find? (fun c => c.pk)).map (fun c => c.name)
      let fk_cols : List String :=
        (m.relationships.filter (fun r => r.1 == t.1)).map (fun r => pyStrip (arrowHead r.2.2))
      let definite :=
        fk_cols.foldl (fun d fk =>
          if !(eqPk fk pk_col) then d ++ [idxStmt t.1 fk] else d) ([] : List String)
      let definite :=
        t.2.foldl (fun d col =>
          let cn := pyLower col.name
          if where_pattern_hit cn && !(eqPk cn pk_col) && !(fk_cols.contains cn)
          then d ++ [idxStmt t.1 col.name] else d) definite
      let possible :=
        t.2.foldl (fun p col =>
          let cn := pyLower col.name
          let ct := pyUpper col.type
          if eqPk cn pk_col || fk_cols.contains cn then p
          else
            let p1 := if possible_type_1.contains ct then p ++ [idxStmt t.1 col.name] else p
            if possible_type_2.contains ct &&
               (strContains cn "name" || strContains cn "title" || strContains cn "code")
            then p1 ++ [idxStmt t.1 col.name] else p1) ([] : List String)
      let da := if definite.isEmpty then acc.1 else acc.1 ++ [(t.1, definite)]
      let pa := if possible.isEmpty then acc.2 else acc.2 ++ [(t.1, possible)]
      (da, pa)) ([], [])

/-! ### Concrete inputs used by the claim theorems -/

/-- DDL matches of the suppression example: `users(id PK)` and
`orders(id PK, user_id, FOREIGN KEY (user_id) REFERENCES users(id))`. -/
def exC1stmts : List (String × String) :=
  [("users", "id INTEGER PRIMARY KEY"),
   ("orders", "id INTEGER PRIMARY KEY, user_id INTEGER, FOREIGN KEY (user_id) REFERENCES users(id)")]

/-- The table body of the constraint-fragment exclusion example. -/
def mixedBody : String :=
  "id INTEGER PRIMARY KEY, name TEXT, FOREIGN KEY (cat_id) REFERENCES categories(id)"

/-- Tables with a camel-case `accountId` column and an `accounts` target. -/
def ex3camel : List (String × List Column) :=
  [("t", [⟨"id", "INTEGER", true, true⟩, ⟨"accountId", "INTEGER", true, false⟩]),
   ("accounts", [⟨"id", "INTEGER", true, true⟩])]

/-- Tables with a camel-case `accountKey` column and an `accounts` target. -/
def ex3camelK : List (String × List Column) :=
  [("t", [⟨"id", "INTEGER", true, true⟩, ⟨"accountKey", "INTEGER", true, false⟩]),
   ("accounts", [⟨"id", "INTEGER", true, true⟩])]

/-- Tables with a snake-case `account_id` column and an `accounts` target. -/
def ex3snake : List (String × List Column) :=
  [("t", [⟨"id", "INTEGER", true, true⟩, ⟨"account_id", "INTEGER", true, false⟩]),
   ("accounts", [⟨"id", "INTEGER", true, true⟩])]

/-- A table whose only column, `Name`, is its primary key. -/
def pkCaseModel : Model := ⟨[("t", [⟨"Name", "TEXT", true, true⟩])], [], []⟩

/-- A table with primary key `id` and an `INTEGER` column `status`. -/
def statusModel : Model :=
  ⟨[("t", [⟨"id", "INTEGER", false, true⟩, ⟨"status", "INTEGER", true, false⟩])], [], []⟩

/-- `items.category_id` with a primary-key-less `category` table enumerated
before a `categories` table that has a primary key. -/
def ex6tables : List (String × List Column) :=
  [("items", [⟨"id", "INTEGER", true, true⟩, ⟨"category_id", "INTEGER", true, false⟩]),
   ("category", [⟨"x", "TEXT", true, false⟩]),
   ("categories", [⟨"id", "INTEGER", true, true⟩])]

/-- `items.category_id` next to a single named target table with primary key `id`. -/
def mkEx7 (target : String) : List (String × List Column) :=
  [("items", [⟨"id", "INTEGER", true, true⟩, ⟨"category_id", "INTEGER", true, false⟩]),
   (target, [⟨"id", "INTEGER", true, true⟩])]

/-- Catalog input with one declared foreign key. -/
def catW : List CatTable := [⟨"a", [⟨"id", "INTEGER", true, true⟩], [("b", "bid")]⟩]

/-- DDL input with one declared foreign key. -/
def stmtsW : List (String × String) := [("c", "x INTEGER, FOREIGN KEY (x) REFERENCES d(y)")]

/-- A statement whose body holds only a table-level constraint. -/
def ghostStmt : List (String × String) := [("ghost", "FOREIGN KEY (x) REFERENCES parent(y)")]

/-- Witness model for purity of the inference heuristic. -/
def mwTables : List (String × List Column) := [("users", [⟨"id", "INTEGER", true, true⟩])]

/-- Witness model with empty relationship lists. -/
def mw1 : Model := ⟨mwTables, [], []⟩

/-- Witness model with the same tables but different relationship lists. -/
def mw2 : Model := ⟨mwTables, [("a", "b", "c")], [("a", "b", "c")]⟩

/-! ### Helper lemmas -/

/-- After an in-place dict overwrite, the key maps to the new value. -/
theorem find_map_overwrite {α : Type} (k : String) (v : α) :
    ∀ d : List (String × α), d.any (fun e => e.1 == k) = true →
      (d.map (fun e => if e.1 == k then (k, v) else e)).find? (fun e => e.1 == k) =
        some (k, v) := by
  intro d
  induction d with
  | nil => intro h; simp at h
  | cons e t ih =>
    intro h
    by_cases he : (e.1 == k) = true
    · simp only [List.map_cons, if_pos he]
      rw [List.find?_cons_of_pos]
      simp
    · have hf : (e.1 == k) = false := by simpa using he
      have ht : t.any (fun e => e.1 == k) = true := by
        simp only [List.any_cons, hf, Bool.false_or] at h; exact h
      simp only [List.map_cons, if_neg he]
      rw [List.find?_cons_of_neg]
      · exact ih ht
      · simp [hf]

/-- After appending a fresh key, the key maps to the appended value. -/
theorem find_append_new {α : Type} (k : String) (v : α) :
    ∀ d : List (String × α), d.any (fun e => e.1 == k) = false →
      ((d ++ [(k, v)]).find? (fun e => e.1 == k)) = some (k, v) := by
  intro d
  induction d with
  | nil =>
    intro _
    simp only [List.nil_append]
    rw [List.find?_cons_of_pos]
    simp
  | cons e t ih =>
    intro h
    simp only [List.any_cons, Bool.or_eq_false_iff] at h
    simp only [List.cons_append]
    rw [List.find?_cons_of_neg]
    · exact ih h.2
    · simp [h.1]

/-- Looking up a key right after a dict assignment returns the assigned value. -/
theorem lookup_dictInsert {α : Type} (d : List (String × α)) (k : String) (v : α) :
    lookupTable (dictInsert d k v) k = some v := by
  unfold dictInsert lookupTable
  by_cases h : d.any (fun e => e.1 == k) = true
  · rw [if_pos h, find_map_overwrite k v d h]
    rfl
  · have hf : d.any (fun e => e.1 == k) = false := Bool.eq_false_iff.mpr h
    rw [if_neg h, find_append_new k v d hf]
    rfl

/-- The merge loop only ever appends: membership in the accumulator is
preserved. -/
theorem mem_foldl_finStep (explicit : List RelTuple) (l : List RelTuple) :
    ∀ (acc : List RelTuple) (x : RelTuple), x ∈ acc →
      x ∈ l.foldl (finStep explicit) acc := by
  induction l with
  | nil => intro acc x h; simpa using h
  | cons e t ih =>
    intro acc x h
    rw [List.foldl_cons]
    refine ih (finStep explicit acc e) x ?_
    unfold finStep
    split
    · exact List.mem_append_left _ h
    · exact h

/-- Finalization does not change the explicit relationship list. -/
theorem finalize_explicit_eq (m : Model) (a : Bool) :
    (finalize m a).explicit_relationships = m.explicit_relationships := by
  cases a <;> rfl

/-- Every explicit relationship survives finalization into `relationships`. -/
theorem mem_finalize (m : Model) (a : Bool) (r : RelTuple)
    (h : r ∈ m.explicit_relationships) : r ∈ (finalize m a).relationships := by
  cases a
  · exact h
  · exact mem_foldl_finStep m.explicit_relationships
      (find_potential_relationships m.tables) m.explicit_relationships r h

/-! ### Claim theorems -/

/-- C1: at the spec's suppression example — `orders.user_id` with primary key
`users.id` and an explicit DDL foreign key from `orders.user_id` to
`users.id` — the final relationships list contains TWO `(orders, users, *)`
entries, not one: the explicit tuple records the referenced column `id`, so
its pre-arrow token never equals the inferred child token `user_id` and the
inferred relationship is not suppressed. -/
theorem suppression_example_not_suppressed :
    (parse_sql_file exC1stmts true).relationships =
      [("orders", "users", "id"), ("orders", "users", "user_id → id")] ∧
    ((parse_sql_file exC1stmts true).relationships.filter
        (fun r => r.1 == "orders" && r.2.1 == "users")).length = 2 := by
  refine ⟨by decide, by decide⟩

/-- C2 counterexample: for the stated body, the recorded explicit
relationship is `(items, categories, "id")`, not
`(items, categories, "cat_id → id")` as the claim requires. -/
theorem constraint_fragment_counterexample :
    (parse_sql_file [("items", mixedBody)] false).explicit_relationships =
      [("items", "categories", "id")] ∧
    ("items", "categories", "cat_id → id") ∉
      (parse_sql_file [("items", mixedBody)] false).relationships := by
  refine ⟨by decide, by decide⟩

/-- Foreign-key extraction on the constraint-fragment body records the
referenced column only. -/
theorem extract_fk_mixedBody (tn : String) :
    extract_foreign_keys tn mixedBody = [(tn, "categories", "id")] := by
  unfold extract_foreign_keys
  rw [show scanFKs mixedBody.data =
        [("cat_id".data, "categories".data, some ("id".data))] from by decide]
  rfl

/-- C2 (amended): for every `CREATE TABLE` statement whose body is
`"id INTEGER PRIMARY KEY, name TEXT, FOREIGN KEY (cat_id) REFERENCES
categories(id)"`, exactly the two columns `id` and `name` are registered for
the table (nothing from the `FOREIGN KEY` fragment), and exactly one explicit
relationship is recorded — as `(thisTable, categories, "id")`, carrying the
referenced column only rather than a `"cat_id → id"` label. -/
theorem constraint_fragment_amended (m : Model) (rawName : String) :
    lookupTable (processCreate m (rawName, mixedBody)).tables (stripChars rawName quoteChars) =
      some [⟨"id", "INTEGER", true, true⟩, ⟨"name", "TEXT", true, false⟩] ∧
    (processCreate m (rawName, mixedBody)).explicit_relationships =
      m.explicit_relationships ++ [(stripChars rawName quoteChars, "categories", "id")] := by
  have hcols : columnsOfBody mixedBody =
      [⟨"id", "INTEGER", true, true⟩, ⟨"name", "TEXT", true, false⟩] := by decide
  constructor
  · simp only [processCreate, hcols]
    rw [if_pos (by decide)]
    exact lookup_dictInsert _ _ _
  · simp only [processCreate]
    rw [extract_fk_mixedBody]

/-- C3: the camel-case naming patterns are dead code — the inference
heuristic lower-cases each column name before matching the case-sensitive
patterns `(\w+)ID$`, `(\w+)Id$`, `(\w+)_ID$`, `(\w+)Key$`, so a column
`accountId` (or `accountKey`) yields NO inferred relationship to an
`accounts` table with a registered primary key, while the snake-case
`account_id` does. -/
theorem camelcase_patterns_dead :
    find_potential_relationships ex3camel = [] ∧
    find_potential_relationships ex3camelK = [] ∧
    find_potential_relationships ex3snake = [("t", "accounts", "account_id → id")] := by
  refine ⟨by decide, by decide, by decide⟩

/-- C4: a primary-key column CAN appear in both suggestion lists — for a
table `t` whose primary key is the `TEXT` column `Name`, `_suggest_indexes`
compares the lower-cased name `name` with the recorded primary-key name
`Name`, the guard fails, and an index statement for the primary key is
emitted in both the definite and the possible list. -/
theorem pk_column_in_suggestions :
    (suggest_indexes pkCaseModel).1 = [("t", [idxStmt "t" "Name"])] ∧
    (suggest_indexes pkCaseModel).2 = [("t", [idxStmt "t" "Name"])] := by
  refine ⟨by decide, by decide⟩

/-- C5: the definite and possible classifications are NOT mutually
exclusive — an `INTEGER` column `status` (neither primary key nor foreign
key) matches the `status$` where-pattern and so is emitted as a definite
suggestion, and the possible-branch guard only excludes primary-key and
foreign-key columns, so the same column is emitted again as a possible
suggestion. -/
theorem definite_possible_overlap :
    (suggest_indexes statusModel).1 = [("t", [idxStmt "t" "status"])] ∧
    (suggest_indexes statusModel).2 = [("t", [idxStmt "t" "status"])] := by
  refine ⟨by decide, by decide⟩

/-- C6 counterexample: with tables enumerated as `items`, `category` (no
primary key), `categories` (primary key `id`), the column
`items.category_id` yields NO inferred relationship — the scan `break`s at
the candidate-named `category` instead of passing over it to reach
`categories`, contradicting the claim. -/
theorem first_candidate_counterexample :
    find_potential_relationships ex6tables = [] ∧
    ("items", "categories", "category_id → id") ∉
      find_potential_relationships ex6tables := by
  refine ⟨by decide, by decide⟩

/-- C6 (amended): the target scan stops at the FIRST table whose lower-cased
name is in the pluralization candidate set, regardless of primary keys: a
relationship is emitted exactly when that same first candidate table has a
registered primary key, and it targets that table; when the first candidate
table has no primary key, nothing is emitted for the column's pattern and
later candidate tables are never considered. -/
theorem first_candidate_stops_scan
    (tables : List (String × List Column)) (tn colRaw base : String)
    (pt : String × List Column)
    (hfind : tables.find? (fun e => (plural_candidates base).contains (pyLower e.1)) =
      some pt) :
    (pkGet tables pt.1 = none → resolve_reference tables tn colRaw base = []) ∧
    (∀ k, pkGet tables pt.1 = some k →
      resolve_reference tables tn colRaw base = [(tn, pt.1, colRaw ++ " → " ++ k)]) := by
  constructor
  · intro hpk
    unfold resolve_reference
    rw [hfind]
    have hred : (match pkGet tables pt.1 with
        | some pkc => [(tn, pt.1, colRaw ++ " → " ++ pkc)]
        | none => ([] : List RelTuple)) = [] := by rw [hpk]
    exact hred
  · intro k hpk
    unfold resolve_reference
    rw [hfind]
    have hred : (match pkGet tables pt.1 with
        | some pkc => [(tn, pt.1, colRaw ++ " → " ++ pkc)]
        | none => ([] : List RelTuple)) = [(tn, pt.1, colRaw ++ " → " ++ k)] := by rw [hpk]
    exact hred

/-- C6 witness: at the counterexample tables, the first candidate-named table
`category` has no primary key, so the scan produces nothing. -/
theorem first_candidate_stops_scan_witness :
    resolve_reference ex6tables "items" "category_id" "category" = [] :=
  (first_candidate_stops_scan ex6tables "items" "category_id" "category"
      ("category", [⟨"x", "TEXT", true, false⟩]) (by decide)).1 (by decide)

/-- C7 counterexample: the pluralization candidate set for base `category` is
{`category`, `categorys`, `categories`}; a target table named `categorie`
(primary key `id`) is NOT matched, although the claim says it is. -/
theorem pluralization_counterexample :
    find_potential_relationships (mkEx7 "categorie") = [] := by decide

/-- C7 (amended): `items.category_id` matches a target table named
`categories`, `category` or `categorys` (each with a registered primary key),
and never the unrelated table `category_log`; the `categorie` variant is not
in the candidate set. -/
theorem pluralization_amended :
    find_potential_relationships (mkEx7 "categories") =
      [("items", "categories", "category_id → id")] ∧
    find_potential_relationships (mkEx7 "category") =
      [("items", "category", "category_id → id")] ∧
    find_potential_relationships (mkEx7 "categorys") =
      [("items", "categorys", "category_id → id")] ∧
    find_potential_relationships (mkEx7 "category_log") = [] := by
  refine ⟨by decide, by decide, by decide, by decide⟩

/-- C8: for every finalized model of either front-end, with or without
inference, every explicit relationship tuple is a member of the final
relationships list. -/
theorem explicit_dominance (catalog : List CatTable) (stmts : List (String × String))
    (a : Bool) (r : RelTuple) :
    (r ∈ (parse_sqlite_db catalog a).explicit_relationships →
      r ∈ (parse_sqlite_db catalog a).relationships) ∧
    (r ∈ (parse_sql_file stmts a).explicit_relationships →
      r ∈ (parse_sql_file stmts a).relationships) := by
  constructor
  · intro h
    unfold parse_sqlite_db at h ⊢
    rw [finalize_explicit_eq] at h
    exact mem_finalize _ _ _ h
  · intro h
    unfold parse_sql_file at h ⊢
    rw [finalize_explicit_eq] at h
    exact mem_finalize _ _ _ h

/-- C8 witness: a declared catalog foreign key and a declared DDL foreign key
both reach the final relationships list. -/
theorem explicit_dominance_witness :
    ("a", "b", "bid") ∈ (parse_sqlite_db catW false).relationships ∧
    ("c", "d", "y") ∈ (parse_sql_file stmtsW true).relationships :=
  ⟨(explicit_dominance catW stmtsW false ("a", "b", "bid")).1 (by decide),
   (explicit_dominance catW stmtsW true ("c", "d", "y")).2 (by decide)⟩

/-- C9: the inference heuristic is pure and idempotent — the method leaves
the model unchanged, its output depends only on the model's `tables`, and
running it twice on the unchanged model yields the same list in the same
order. -/
theorem inference_pure_idempotent (m1 m2 : Model) (h : m1.tables = m2.tables) :
    (find_potential_relationships_step m1).1 = m1 ∧
    (find_potential_relationships_step m1).2 = (find_potential_relationships_step m2).2 ∧
    (find_potential_relationships_step m1).2 =
      (find_potential_relationships_step ((find_potential_relationships_step m1).1)).2 :=
  ⟨rfl, congrArg find_potential_relationships h, rfl⟩

/-- C9 witness: two models sharing tables but with different relationship
lists give the inference heuristic the same output, and the state is
untouched. -/
theorem inference_pure_idempotent_witness :
    (find_potential_relationships_step mw1).1 = mw1 ∧
    (find_potential_relationships_step mw1).2 = (find_potential_relationships_step mw2).2 ∧
    (find_potential_relationships_step mw1).2 =
      (find_potential_relationships_step ((find_potential_relationships_step mw1).1)).2 :=
  inference_pure_idempotent mw1 mw2 rfl

/-- C10: foreign-key extraction runs on every matched `CREATE TABLE`
statement, even one skipped for yielding zero usable columns; hence a
statement whose body is only a `FOREIGN KEY` constraint produces an explicit
(and final) relationship whose from-table has no entry in `tables`. -/
theorem fk_extraction_unconditional :
    (∀ (m : Model) (nm body : String),
      (processCreate m (nm, body)).explicit_relationships =
        m.explicit_relationships ++ extract_foreign_keys (stripChars nm quoteChars) body) ∧
    lookupTable (parse_sql_file ghostStmt false).tables "ghost" = none ∧
    ("ghost", "parent", "y") ∈ (parse_sql_file ghostStmt false).relationships := by
  refine ⟨fun m nm body => rfl, by decide, by decide⟩
